import Mathlib

/-!
Shallow embedding of the TiKV client gc / split-region core
(`KVStore.GC`, `resolveLocksForRange`, `batchResolveLocksInARegion`,
`splitBatchRegionsReq`, `batchSendSingleRegion`, `SplitRegions`,
`scatterRegion`, `preSplitRegion`, `WaitScatterRegionFinish`,
`CheckRegionInScattering`), with theorems settling the frozen claims.

External collaborators (region locator, PD client, lock resolver, backoff
controller) are modelled as oracle inputs: each network call's outcome is a
parameter of the embedded function, so one embedded step corresponds to one
iteration of the Go loop with those call results.
-/

namespace TikvSplit

/-- A byte string (Go `[]byte`): keys, operator descriptors. -/
abbrev Key := List Nat

/-- Embedding of Go `bytes.Compare`: lexicographic byte comparison. -/
def byteCompare : Key → Key → Ordering
  | [], [] => .eq
  | [], _ :: _ => .lt
  | _ :: _, [] => .gt
  | a :: as, b :: bs =>
    if a < b then .lt else if b < a then .gt else byteCompare as bs

/-- Errors distinguished by the code: `*tikverr.ErrPDServerTimeout` is
special-cased in the scatter loop; everything else is only compared to nil. -/
inductive Err where
  | cancelled
  | pdServerTimeout
  | bodyMissing
  | other (code : Nat)
deriving DecidableEq, Repr

/-- Region id (`metapb.Region.Id` is all the split path reads). -/
abbrev RegionId := Nat

/-- Result of one batch's task (`singleBatchResp`): the split response body is
the list of child-region ids (`SplitRegionResponse.Regions`), `none` when the
task produced no response. -/
structure SingleBatchResp where
  resp : Option (List RegionId)
  err : Option Err
deriving DecidableEq, Repr

/-- Embedding of the result-merging loop of `splitBatchRegionsReq`
(the multi-batch path): receive each batch response in order; the first
non-nil error is kept; every non-nil response's regions are appended to the
merged `SplitRegionResponse`. -/
def mergeBatchResps : List SingleBatchResp → List RegionId × Option Err
  | [] => ([], none)
  | r :: rest =>
    let acc := mergeBatchResps rest
    ((match r.resp with
      | some regs => regs
      | none => []) ++ acc.1,
     match r.err with
     | some e => some e
     | none => acc.2)

/-- Embedding of `regions[:len(regions)-1]` guarded by `len(regions) > 0` in
`batchSendSingleRegion`: drop the last returned child region, which inherits
the original region's placement. -/
def trimRegions (regions : List RegionId) : List RegionId :=
  if regions.length > 0 then regions.dropLast else regions

/-- Embedding of the scatter loop of `batchSendSingleRegion`: walk the
(already trimmed) child regions in order, issuing one `scatterRegion` call
per region (`scatterF` gives each call's outcome); the first error is
recorded into the batch error slot; a `pdServerTimeout` error breaks out of
the loop. Returns (number of scatter requests issued, final batch error). -/
def scatterFold (scatterF : RegionId → Option Err) (batchErr : Option Err) :
    List RegionId → Nat × Option Err
  | [] => (0, batchErr)
  | r :: rest =>
    match scatterF r with
    | none =>
      let p := scatterFold scatterF batchErr rest
      (p.1 + 1, p.2)
    | some e =>
      let be := match batchErr with
        | some b => some b
        | none => some e
      if e = Err.pdServerTimeout then (1, be)
      else
        let p := scatterFold scatterF be rest
        (p.1 + 1, p.2)

/-- Embedding of the success path of `batchSendSingleRegion` (the split RPC
returned a `SplitRegionResponse` with `regions`, no transport and no region
error): trim the last child in place, then, when `scatter` is set, run the
scatter loop. Returns the batch response together with the number of scatter
requests issued. -/
def batchSendSingleRegionOk (regions : List RegionId) (scatter : Bool)
    (scatterF : RegionId → Option Err) : SingleBatchResp × Nat :=
  let trimmed := trimRegions regions
  if scatter then
    let p := scatterFold scatterF none trimmed
    ({ resp := some trimmed, err := p.2 }, p.1)
  else
    ({ resp := some trimmed, err := none }, 0)

/-- Embedding of the tail of `SplitRegions`: extract the region ids of the
merged response (ids are the only field the embedding keeps of a region, so
extraction is the merged list itself) together with the merged error. -/
def splitRegionsResult (rs : List SingleBatchResp) : List RegionId × Option Err :=
  mergeBatchResps rs

/-- First non-nil task error in channel-receive order. -/
def firstTaskErr (rs : List SingleBatchResp) : Option Err :=
  rs.findSome? (fun r => r.err)

/-! ## Lock-resolution sweep (`resolveLocksForRange`, `batchResolveLocksInARegion`) -/

/-- Modelled from the spec: the lock resolver's internal resolved-transaction
cache capacity (`ResolvedCacheSize`, declared outside this file); the scan
limit is half of it so GC does not evict unrelated cached resolutions. -/
def ResolvedCacheSize : Nat := 2048

/-- `gcScanLockLimit = ResolvedCacheSize / 2`. -/
def gcScanLockLimit : Nat := ResolvedCacheSize / 2

/-- An MVCC lock as the sweep uses it: only its key is read
(`locks[len(locks)-1].Key`, `locks[0].Key`). -/
structure Lock where
  key : Key
deriving DecidableEq, Repr

/-- A region location (`locate.KeyLocation`): boundaries and identity. -/
structure Location where
  regionId : RegionId
  startKey : Key
  endKey : Key
deriving DecidableEq, Repr

/-- Modelled from the spec: the region locator's `Location.Contains`
(declared outside this file) — a location covers the half-open interval
`[startKey, endKey)`, an empty `endKey` meaning unbounded above. -/
def containsKey (l : Location) (k : Key) : Bool :=
  !(byteCompare l.startKey k == Ordering.gt) &&
    ((byteCompare k l.endKey == Ordering.lt) || l.endKey.length == 0)

/-- Outcome of one iteration of the `batchResolveLocksInARegion` loop:
either the function returns (location, error) or it loops again against a
freshly located region. -/
inductive BResolveOut where
  | ret (loc : Option Location) (err : Option Err)
  | cont (loc : Location)
deriving DecidableEq, Repr

/-- Embedding of one iteration of `batchResolveLocksInARegion`:
`resolveCall` is `BatchResolveLocks`'s result `(ok, err)`, `boRes` the
outcome of `bo.Backoff` (`some e` = budget exhausted), `locateRes` the
outcome of re-locating the first lock's key. `ret (some loc) none` is
success, `ret none none` is the rescan sentinel (fresh region no longer
contains the last lock's key). -/
def batchResolveStep (locks : List Lock) (resolvedLocation : Location)
    (resolveCall : Bool × Option Err) (boRes : Option Err)
    (locateRes : Except Err Location) : BResolveOut :=
  match resolveCall with
  | (true, _) => .ret (some resolvedLocation) none
  | (false, some e) => .ret none (some e)
  | (false, none) =>
    match boRes with
    | some e => .ret none (some e)
    | none =>
      match locateRes with
      | .error e1 => .ret none (some e1)
      | .ok region =>
        if containsKey region ((locks.getLastD ⟨[]⟩).key) then .cont region
        else .ret none none

/-- Embedding of lines 118-130 of the sweep: advance the sweep state after a
bulk resolution that returned a non-nil location. Fewer locks than the scan
limit means the region is drained: count it completed and jump to the
region's end boundary; otherwise resume from the last returned lock's key. -/
def sweepAdvance (stat : Nat) (locks : List Lock) (loc : Location)
    (limit : Nat) : Nat × Key :=
  if locks.length < limit then (stat + 1, loc.endKey)
  else (stat, (locks.getLastD ⟨[]⟩).key)

/-- Embedding of the sweep's loop-exit test:
`len(key) == 0 || (len(endKey) != 0 && bytes.Compare(key, endKey) >= 0)`. -/
def sweepBreak (key endKey : Key) : Bool :=
  key.length == 0 ||
    (endKey.length != 0 && !(byteCompare key endKey == Ordering.lt))

/-- Oracle for one iteration of the `resolveLocksForRange` loop: the
cancellation check, the outcome of `scanLocksInRegionWithStartKey`, the
outcome of `batchResolveLocksInARegion` (`ok none` = rescan sentinel), and
how many backoff sleeps each of the two calls consumed from the iteration's
backoffer. -/
structure IterOracle where
  cancelled : Bool
  scanRes : Except Err (List Lock × Location)
  scanBoUsed : Nat
  resolveRes : Except Err (Option Location)
  resolveBoUsed : Nat

/-- Outcome of one iteration of the sweep loop: return from the function, or
go around the loop again with a new (stat, key, backoffer) state. The
backoffer is modelled by its consumed sleep count; a freshly constructed
`NewGcResolveLockMaxBackoffer` is `0`. -/
inductive SweepOut where
  | ret (stat : Nat) (err : Option Err)
  | next (stat : Nat) (key : Key) (bo : Nat)
deriving DecidableEq, Repr

/-- Embedding of one iteration of the `resolveLocksForRange` loop. The
rescan sentinel (`resolvedLocation == nil`) hits `continue`: stat and key
are unchanged and the same backoffer (with whatever it consumed) is kept.
The advance path either breaks out returning the updated stat, or reaches
the bottom of the loop where a fresh backoffer is constructed. -/
def sweepIter (stat : Nat) (key endKey : Key) (bo : Nat) (o : IterOracle)
    (limit : Nat) : SweepOut :=
  if o.cancelled then .ret stat (some Err.cancelled)
  else
    match o.scanRes with
    | .error e => .ret stat (some e)
    | .ok (locks, loc) =>
      let bo1 := bo + o.scanBoUsed
      match o.resolveRes with
      | .error e1 => .ret stat (some e1)
      | .ok none => .next stat key (bo1 + o.resolveBoUsed)
      | .ok (some _) =>
        let p := sweepAdvance stat locks loc limit
        if sweepBreak p.2 endKey then .ret p.1 none
        else .next p.1 p.2 0

/-- Embedding of the `resolveLocksForRange` loop driven by a list of
per-iteration oracles: starts from `startKey` with a freshly constructed
backoffer (`0`); `Sum.inl` is the function's return, `Sum.inr` the loop
state when the oracle list runs out. -/
def sweepLoop (endKey : Key) (limit : Nat) :
    List IterOracle → Nat → Key → Nat → (Nat × Option Err) ⊕ (Nat × Key × Nat)
  | [], stat, key, bo => Sum.inr (stat, key, bo)
  | o :: os, stat, key, bo =>
    match sweepIter stat key endKey bo o limit with
    | .ret s e => Sum.inl (s, e)
    | .next s k b => sweepLoop endKey limit os s k b

/-- Embedding of `resolveLocksForRange`'s entry: the loop starts at
`startKey` with a freshly constructed backoffer. -/
def resolveLocksForRangeRun (startKey endKey : Key) (limit : Nat)
    (os : List IterOracle) : (Nat × Option Err) ⊕ (Nat × Key × Nat) :=
  sweepLoop endKey limit os 0 startKey 0

/-! ## GC and the safe point (`KVStore.GC`) -/

/-- Modelled from the spec: the placement service's recorded safe point, a
monotonically non-decreasing watermark owned by the placement service. -/
structure PDState where
  safePoint : Nat
deriving DecidableEq, Repr

/-- Modelled from the spec: `advanceSafePoint(ctx, ts) -> (newTs, error)`
(`pdClient.UpdateGCSafePoint`, declared outside this file) — the watermark
never decreases, so updating with `ts` advances it to the maximum of the old
value and `ts` and returns the new value. -/
def updateGCSafePoint (st : PDState) (ts : Nat) : PDState × Nat :=
  ({ safePoint := max st.safePoint ts }, max st.safePoint ts)

/-- Embedding of `KVStore.GC`: run the lock-resolution sweep (its outcome is
the oracle `sweepErr`); on error return with the named result
`newSafePoint` still at its zero value. Otherwise return what
`UpdateGCSafePoint` returns (`updateErr` models its transport outcome, with
the zero value returned alongside an error). -/
def gcRun (st : PDState) (safepoint : Nat) (sweepErr updateErr : Option Err) :
    PDState × Nat × Option Err :=
  match sweepErr with
  | some e => (st, 0, some e)
  | none =>
    match updateErr with
    | some e => (st, 0, some e)
    | none =>
      let p := updateGCSafePoint st safepoint
      (p.1, p.2, none)

/-! ## Scatter polling (`WaitScatterRegionFinish`, `CheckRegionInScattering`) -/

/-- `pdpb.OperatorStatus`. -/
inductive OperatorStatus where
  | RUNNING
  | SUCCESS
  | CANCEL
  | TIMEOUT
  | REPLACE
deriving DecidableEq, Repr

/-- The operator descriptor `pdClient.GetOperator` returns: its `Desc`
bytes, its status, and the error embedded in its response header. -/
structure OperatorResp where
  desc : String
  status : OperatorStatus
  headerError : Option Err
deriving DecidableEq, Repr

/-- The operator is an active scatter operator: `Desc` equals
`"scatter-region"` and the status is `RUNNING`. -/
def scatterRunning (r : OperatorResp) : Bool :=
  r.desc == "scatter-region" && r.status == OperatorStatus.RUNNING

/-- Outcome of one poll iteration of `WaitScatterRegionFinish`: return nil,
return the operator-header error, return the backoff-exhaustion error, or
poll again. -/
inductive WaitStep where
  | retNil
  | retErr (e : Err)
  | retBackoffErr (e : Err)
  | loop
deriving DecidableEq, Repr

/-- Embedding of one iteration of the `WaitScatterRegionFinish` poll loop:
`pollErr`/`resp` are `GetOperator`'s outcome and `boErr` the outcome of the
`bo.Backoff` call reached when the iteration does not return. When the poll
succeeds, the not-scatter-or-not-running test runs first and returns nil;
only a still-running scatter operator has its header error examined. -/
def waitScatterStep (pollErr : Option Err) (resp : Option OperatorResp)
    (boErr : Option Err) : WaitStep :=
  match pollErr, resp with
  | none, some r =>
    if !(scatterRunning r) then .retNil
    else
      match r.headerError with
      | some e => .retErr e
      | none =>
        match boErr with
        | none => .loop
        | some e => .retBackoffErr e
  | _, _ =>
    match boErr with
    | none => .loop
    | some e => .retBackoffErr e

/-- Outcome of one poll iteration of `CheckRegionInScattering`: return
`(bool, error)` or loop again. -/
inductive CheckOut where
  | ret (b : Bool) (e : Option Err)
  | loop
deriving DecidableEq, Repr

/-- Embedding of one iteration of the `CheckRegionInScattering` loop: on a
successful poll showing no running scatter operator return `(false, nil)`;
on any other successful poll (including a nil descriptor) return
`(true, nil)`; on a poll error back off — budget exhaustion returns
`(true, error)`, otherwise loop. -/
def checkRegionStep (pollErr : Option Err) (resp : Option OperatorResp)
    (boErr : Option Err) : CheckOut :=
  match pollErr, resp with
  | none, some r =>
    if !(scatterRunning r) then .ret false none
    else .ret true none
  | none, none => .ret true none
  | some _, _ =>
    match boErr with
    | none => .loop
    | some e => .ret true (some e)

/-! ## Pre-split heuristic (`preSplitRegion`) -/

/-- A mutation as `preSplitRegion` reads it: its key and its value (the
value may be empty for pessimistic lock keys). -/
abbrev Mutation := Key × Key

/-- Embedding of the split-point selection loop of `preSplitRegion`:
accumulate `len(key)+len(value)` over the mutations in order; when the
accumulator reaches the threshold, reset it and record the current key. -/
def preSplitKeysGo (muts : List Mutation) (threshold : Nat) : List Key :=
  (muts.foldl
    (fun (acc : Nat × List Key) m =>
      let sz := acc.1 + m.1.length + m.2.length
      if sz ≥ threshold then (0, acc.2 ++ [m.1]) else (sz, acc.2))
    (0, [])).2

/-- The split-point selection as the spec phrases it: the keys at which the
running sum of `len(key)+len(value)`, accumulated in order and reset to zero
at each selected key, reaches or exceeds the threshold. -/
def specSplitPoints (threshold : Nat) : Nat → List Mutation → List Key
  | _, [] => []
  | run, m :: rest =>
    let run1 := run + m.1.length + m.2.length
    if run1 ≥ threshold then m.1 :: specSplitPoints threshold 0 rest
    else specSplitPoints threshold run1 rest

/-- The observable side effects of `preSplitRegion`. -/
inductive Action where
  | split (keys : List Key) (scatter : Bool)
  | waitScatter (rid : RegionId)
  | invalidateRegion (rid : RegionId)
deriving DecidableEq, Repr

/-- Embedding of `preSplitRegion`: compute the split keys; when none
accumulate, return false with no side effect. Otherwise invoke
`SplitRegions` with scatter=true (outcome `splitRes`); on error return
false, else best-effort await scatter of each returned region and
invalidate the original region's cache entry. -/
def preSplitRegionRun (muts : List Mutation) (threshold : Nat)
    (origRegion : RegionId) (splitRes : Except Err (List RegionId)) :
    Bool × List Action :=
  let splitKeys := preSplitKeysGo muts threshold
  if splitKeys.length = 0 then (false, [])
  else
    match splitRes with
    | .error _ => (false, [Action.split splitKeys true])
    | .ok rids =>
      (true,
        Action.split splitKeys true ::
          (rids.map Action.waitScatter ++ [Action.invalidateRegion origRegion]))

/-! ## Helper lemmas -/

theorem mergeBatchResps_snd (rs : List SingleBatchResp) :
    (mergeBatchResps rs).2 = firstTaskErr rs := by
  induction rs with
  | nil => rfl
  | cons r rest ih =>
    simp only [mergeBatchResps, firstTaskErr, List.findSome?_cons] at *
    cases h : r.err <;> simp [h, ih]

theorem mergeBatchResps_fst_of_failed_nil (rs : List SingleBatchResp)
    (h : ∀ r ∈ rs, r.err ≠ none → r.resp = none) :
    (mergeBatchResps rs).1 =
      (rs.filterMap (fun r => if r.err = none then r.resp else none)).flatten := by
  induction rs with
  | nil => rfl
  | cons r rest ih =>
    have hr := h r (by simp)
    have hrest : ∀ x ∈ rest, x.err ≠ none → x.resp = none := by
      intro x hx
      exact h x (by simp [hx])
    simp only [mergeBatchResps, List.filterMap_cons]
    cases he : r.err with
    | none =>
      cases hp : r.resp <;> simp [he, hp, List.flatten, ih hrest]
    | some e =>
      have : r.resp = none := hr (by simp [he])
      simp [he, this, ih hrest]

theorem trimRegions_eq_dropLast (regions : List RegionId) :
    trimRegions regions = regions.dropLast := by
  cases regions with
  | nil => rfl
  | cons r rest => simp [trimRegions]

theorem scatterFold_count_no_timeout (f : RegionId → Option Err)
    (be : Option Err) (l : List RegionId)
    (h : ∀ r ∈ l, f r ≠ some Err.pdServerTimeout) :
    (scatterFold f be l).1 = l.length := by
  induction l generalizing be with
  | nil => rfl
  | cons r rest ih =>
    have hr := h r (by simp)
    have hrest : ∀ x ∈ rest, f x ≠ some Err.pdServerTimeout := by
      intro x hx
      exact h x (by simp [hx])
    simp only [scatterFold]
    cases hf : f r with
    | none => simp [ih be hrest]
    | some e =>
      have hne : ¬ e = Err.pdServerTimeout := by
        intro he
        exact hr (by rw [hf, he])
      simp [hne, ih _ hrest]

theorem batchSendSingleRegionOk_resp (rg : List RegionId) (scatter : Bool)
    (f : RegionId → Option Err) :
    (batchSendSingleRegionOk rg scatter f).1.resp = some rg.dropLast := by
  cases scatter <;> simp [batchSendSingleRegionOk, trimRegions_eq_dropLast]

theorem getLast_not_mem_dropLast {α : Type} (l : List α) (h : l ≠ [])
    (hnd : l.Nodup) : l.getLast h ∉ l.dropLast := by
  intro hmem
  have heq := List.dropLast_append_getLast h
  rw [← heq, List.nodup_append] at hnd
  exact hnd.2.2 hmem (by simp)

theorem mergeBatchResps_map_resp (batches : List (List RegionId))
    (scatter : Bool) (f : RegionId → Option Err) :
    (mergeBatchResps
      (batches.map (fun rg => (batchSendSingleRegionOk rg scatter f).1))).1 =
      (batches.map List.dropLast).flatten := by
  induction batches with
  | nil => rfl
  | cons c cs ih =>
    simp only [List.map_cons, mergeBatchResps, List.flatten_cons]
    rw [batchSendSingleRegionOk_resp, ih]

theorem lastId_not_mem_flatten_dropLast (batches : List (List RegionId))
    (hnd : batches.flatten.Nodup) (b : List RegionId) (hb : b ∈ batches)
    (hbne : b ≠ []) :
    b.getLast hbne ∉ (batches.map List.dropLast).flatten := by
  induction batches with
  | nil => simp at hb
  | cons c cs ih =>
    rw [List.flatten_cons, List.nodup_append] at hnd
    obtain ⟨hc, hcs, hdisj⟩ := hnd
    simp only [List.map_cons, List.flatten_cons, List.mem_append]
    rcases List.mem_cons.mp hb with rfl | hbcs
    · push_neg
      refine ⟨getLast_not_mem_dropLast b hbne hc, ?_⟩
      intro hmem
      obtain ⟨d, hd, hxd⟩ := by
        simpa using List.mem_flatten.mp hmem
      have hxflat : b.getLast hbne ∈ cs.flatten :=
        List.mem_flatten.mpr ⟨d, hd, (List.dropLast_sublist d).subset hxd⟩
      exact hdisj (List.getLast_mem hbne) hxflat
    · push_neg
      constructor
      · intro hmem
        have hxc : b.getLast hbne ∈ c := (List.dropLast_sublist c).subset hmem
        have hxflat : b.getLast hbne ∈ cs.flatten :=
          List.mem_flatten.mpr ⟨b, hbcs, List.getLast_mem hbne⟩
        exact hdisj hxc hxflat
      · exact ih hcs hbcs

/-! ## Claim theorems -/

/-- C1: in a multi-batch `splitBatchRegionsReq` (reached via `SplitRegions`)
where at least one batch's task fails and at least one succeeds, and each
failing task carries no response body, the returned error is non-nil and is
the first error observed across the tasks, and the returned region-id list
is exactly the concatenation of the succeeding batches' new region ids —
no successfully split region id is dropped because another batch failed. -/
theorem c1_partial_failure (rs : List SingleBatchResp)
    (hfail : ∃ r ∈ rs, r.err ≠ none)
    (hsucc : ∃ r ∈ rs, r.err = none)
    (hrespNone : ∀ r ∈ rs, r.err ≠ none → r.resp = none) :
    (splitRegionsResult rs).2 ≠ none ∧
    (splitRegionsResult rs).2 = firstTaskErr rs ∧
    (splitRegionsResult rs).1 =
      (rs.filterMap (fun r => if r.err = none then r.resp else none)).flatten := by
  refine ⟨?_, ?_, ?_⟩
  · rw [splitRegionsResult, mergeBatchResps_snd]
    intro hnone
    obtain ⟨r, hr, hre⟩ := hfail
    rw [firstTaskErr, List.findSome?_eq_none_iff] at hnone
    exact hre (hnone r hr)
  · rw [splitRegionsResult, mergeBatchResps_snd]
  · rw [splitRegionsResult, mergeBatchResps_fst_of_failed_nil rs hrespNone]

/-- Witness for C1: one failing and one succeeding batch. -/
theorem c1_partial_failure_witness :
    (splitRegionsResult
        [⟨none, some (Err.other 1)⟩, ⟨some [4, 5], none⟩]).2 ≠ none ∧
    (splitRegionsResult
        [⟨none, some (Err.other 1)⟩, ⟨some [4, 5], none⟩]).2 =
      firstTaskErr [⟨none, some (Err.other 1)⟩, ⟨some [4, 5], none⟩] ∧
    (splitRegionsResult
        [⟨none, some (Err.other 1)⟩, ⟨some [4, 5], none⟩]).1 =
      (List.filterMap (fun r => if r.err = none then r.resp else none)
        ([⟨none, some (Err.other 1)⟩, ⟨some [4, 5], none⟩] :
          List SingleBatchResp)).flatten :=
  c1_partial_failure
    [⟨none, some (Err.other 1)⟩, ⟨some [4, 5], none⟩]
    (by decide) (by decide) (by decide)

/-- C2: a batch whose split RPC succeeds with N ≥ 1 child regions and
`scatter=true` issues exactly N−1 scatter requests (one per child except the
placement-inheriting last returned child), provided no scatter request fails
with a placement-service-timeout error. -/
theorem c2_scatter_skip (regions : List RegionId)
    (scatterF : RegionId → Option Err)
    (hN : 1 ≤ regions.length)
    (hnoTO : ∀ r ∈ trimRegions regions,
      scatterF r ≠ some Err.pdServerTimeout) :
    (batchSendSingleRegionOk regions true scatterF).2 = regions.length - 1 := by
  have hcount : (batchSendSingleRegionOk regions true scatterF).2 =
      (scatterFold scatterF none (trimRegions regions)).1 := by
    simp [batchSendSingleRegionOk]
  rw [hcount, scatterFold_count_no_timeout _ _ _ hnoTO,
    trimRegions_eq_dropLast, List.length_dropLast]

/-- Witness for C2: splitting into three children with one non-timeout
scatter failure still issues two scatter requests. -/
theorem c2_scatter_skip_witness :
    (batchSendSingleRegionOk [1, 2, 3] true
      (fun r => if r = 1 then some (Err.other 2) else none)).2 =
      [1, 2, 3].length - 1 :=
  c2_scatter_skip [1, 2, 3]
    (fun r => if r = 1 then some (Err.other 2) else none)
    (by decide) (by decide)

/-- C3: `batchSendSingleRegion` removes the last returned child region from
each successful response before results are merged (whether or not scatter
is requested): each batch's response is the dropLast of its raw child list
(N−1 of N ids), the merged list is the concatenation of those trimmed
lists, and — region ids across the responses being distinct — the merged
region-id list SplitRegions returns never contains any batch's last
(placement-inheriting) child region. -/
theorem c3_trim_last_child (batches : List (List RegionId)) (scatter : Bool)
    (scatterF : RegionId → Option Err)
    (hnd : batches.flatten.Nodup)
    (b : List RegionId) (hb : b ∈ batches) (hbne : b ≠ []) :
    (∀ rg : List RegionId,
      (batchSendSingleRegionOk rg scatter scatterF).1.resp =
          some rg.dropLast ∧
        rg.dropLast.length = rg.length - 1) ∧
    (mergeBatchResps
      (batches.map (fun rg => (batchSendSingleRegionOk rg scatter scatterF).1))).1 =
      (batches.map List.dropLast).flatten ∧
    b.getLast hbne ∉
      (mergeBatchResps
        (batches.map
          (fun rg => (batchSendSingleRegionOk rg scatter scatterF).1))).1 := by
  refine ⟨fun rg => ⟨batchSendSingleRegionOk_resp rg scatter scatterF,
    List.length_dropLast rg⟩, mergeBatchResps_map_resp batches scatter scatterF, ?_⟩
  rw [mergeBatchResps_map_resp]
  exact lastId_not_mem_flatten_dropLast batches hnd b hb hbne

/-- Witness for C3: two batches, scatter off; the last child of the second
batch is absent from the merged list. -/
theorem c3_trim_last_child_witness :
    (∀ rg : List RegionId,
      (batchSendSingleRegionOk rg false (fun _ => none)).1.resp =
          some rg.dropLast ∧
        rg.dropLast.length = rg.length - 1) ∧
    (mergeBatchResps
      ([[1, 2], [3, 4, 5]].map
        (fun rg => (batchSendSingleRegionOk rg false (fun _ => none)).1))).1 =
      ([[1, 2], [3, 4, 5]].map List.dropLast).flatten ∧
    ([3, 4, 5] : List RegionId).getLast (by decide) ∉
      (mergeBatchResps
        ([[1, 2], [3, 4, 5]].map
          (fun rg => (batchSendSingleRegionOk rg false (fun _ => none)).1))).1 :=
  c3_trim_last_child [[1, 2], [3, 4, 5]] false (fun _ => none)
    (by decide) [3, 4, 5] (by decide) (by decide)

/-- C4 counterexample: a poll whose operator descriptor carries a non-nil
header error but is not a scatter-region operator makes
`WaitScatterRegionFinish` return nil, not that error — the
not-scatter-or-not-running test runs before the header-error test. -/
theorem c4_wait_header_error_cex :
    waitScatterStep none
      (some { desc := "transfer-leader", status := OperatorStatus.RUNNING,
              headerError := some (Err.other 7) }) none = WaitStep.retNil ∧
    (some (Err.other 7) : Option Err) ≠ none ∧
    WaitStep.retNil ≠ WaitStep.retErr (Err.other 7) := by
  refine ⟨rfl, by decide, by decide⟩

/-- C4 (amended): in a `WaitScatterRegionFinish` poll iteration, a non-nil
operator-header error is returned immediately provided the operator is a
running scatter-region operator (the not-scatter-or-not-running test runs
first); the iteration returns nil exactly when the successful poll's
operator is not a scatter-region operator or its status is not RUNNING, and
an iteration whose poll errs never returns nil. -/
theorem c4_wait_header_error (r : OperatorResp) (boErr : Option Err) (e : Err) :
    (r.desc = "scatter-region" → r.status = OperatorStatus.RUNNING →
      r.headerError = some e →
      waitScatterStep none (some r) boErr = WaitStep.retErr e) ∧
    (waitScatterStep none (some r) boErr = WaitStep.retNil ↔
      (r.desc ≠ "scatter-region" ∨ r.status ≠ OperatorStatus.RUNNING)) ∧
    (∀ (e1 : Err) (rs : Option OperatorResp),
      waitScatterStep (some e1) rs boErr ≠ WaitStep.retNil) := by
  refine ⟨?_, ⟨?_, ?_⟩, ?_⟩
  · intro h1 h2 h3
    simp [waitScatterStep, scatterRunning, h1, h2, h3]
  · intro h
    by_contra hc
    push_neg at hc
    obtain ⟨hd, hs⟩ := hc
    simp only [waitScatterStep, scatterRunning, hd, hs] at h
    cases hh : r.headerError <;> cases hb : boErr <;> simp [hh, hb] at h
  · intro h
    have hsr : scatterRunning r = false := by
      rcases h with h | h
      · simp [scatterRunning, h]
      · simp [scatterRunning, h]
    simp [waitScatterStep, hsr]
  · intro e1 rs
    cases boErr <;> cases rs <;> simp [waitScatterStep]

/-- Witness for C4: a running scatter-region operator with a header error
returns that error; a finished operator returns nil. -/
theorem c4_wait_header_error_witness :
    waitScatterStep none
      (some { desc := "scatter-region", status := OperatorStatus.RUNNING,
              headerError := some (Err.other 3) }) none =
      WaitStep.retErr (Err.other 3) ∧
    waitScatterStep none
      (some { desc := "scatter-region", status := OperatorStatus.SUCCESS,
              headerError := none }) none = WaitStep.retNil :=
  ⟨(c4_wait_header_error
      { desc := "scatter-region", status := OperatorStatus.RUNNING,
        headerError := some (Err.other 3) } none (Err.other 3)).1
      rfl rfl rfl,
   (c4_wait_header_error
      { desc := "scatter-region", status := OperatorStatus.SUCCESS,
        headerError := none } none (Err.other 3)).2.1.mpr (by decide)⟩

/-- C5: in a sweep iteration that completes bulk resolution with a non-nil
location, `CompletedRegions` is incremented iff the scan returned strictly
fewer locks than `gcScanLockLimit` (`ResolvedCacheSize / 2`); in that case
the current key advances to the scanned region's end boundary, and
otherwise it moves to the last returned lock's key with the counter
unchanged. -/
theorem c5_completed_regions (stat : Nat) (key endKey : Key) (bo : Nat)
    (o : IterOracle) (locks : List Lock) (loc : Location) (l : Location)
    (hc : o.cancelled = false)
    (hs : o.scanRes = Except.ok (locks, loc))
    (hr : o.resolveRes = Except.ok (some l)) :
    ((sweepAdvance stat locks loc gcScanLockLimit).1 = stat + 1 ↔
      locks.length < gcScanLockLimit) ∧
    (locks.length < gcScanLockLimit →
      sweepAdvance stat locks loc gcScanLockLimit = (stat + 1, loc.endKey)) ∧
    (gcScanLockLimit ≤ locks.length →
      sweepAdvance stat locks loc gcScanLockLimit =
        (stat, (locks.getLastD ⟨[]⟩).key)) ∧
    gcScanLockLimit = ResolvedCacheSize / 2 ∧
    sweepIter stat key endKey bo o gcScanLockLimit =
      (if sweepBreak (sweepAdvance stat locks loc gcScanLockLimit).2 endKey
        then SweepOut.ret (sweepAdvance stat locks loc gcScanLockLimit).1 none
        else SweepOut.next (sweepAdvance stat locks loc gcScanLockLimit).1
          (sweepAdvance stat locks loc gcScanLockLimit).2 0) := by
  refine ⟨⟨?_, ?_⟩, ?_, ?_, rfl, ?_⟩
  · intro h
    by_contra hge
    simp [sweepAdvance, hge] at h
  · intro h
    simp [sweepAdvance, h]
  · intro h
    simp [sweepAdvance, h]
  · intro h
    simp [sweepAdvance, Nat.not_lt.mpr h]
  · simp [sweepIter, hc, hs, hr]

/-- Witness for C5: a drained region (no locks returned) increments the
counter and advances to the region's end boundary. -/
theorem c5_completed_regions_witness :
    ((sweepAdvance 0 [] ⟨7, [], [9]⟩ gcScanLockLimit).1 = 0 + 1 ↔
      ([] : List Lock).length < gcScanLockLimit) ∧
    (([] : List Lock).length < gcScanLockLimit →
      sweepAdvance 0 [] ⟨7, [], [9]⟩ gcScanLockLimit = (0 + 1, [9])) ∧
    (gcScanLockLimit ≤ ([] : List Lock).length →
      sweepAdvance 0 [] ⟨7, [], [9]⟩ gcScanLockLimit =
        (0, (([] : List Lock).getLastD ⟨[]⟩).key)) ∧
    gcScanLockLimit = ResolvedCacheSize / 2 ∧
    sweepIter 0 [1] [] 0
      { cancelled := false, scanRes := Except.ok ([], ⟨7, [], [9]⟩),
        scanBoUsed := 0, resolveRes := Except.ok (some ⟨7, [], [9]⟩),
        resolveBoUsed := 0 } gcScanLockLimit =
      (if sweepBreak (sweepAdvance 0 [] ⟨7, [], [9]⟩ gcScanLockLimit).2 []
        then SweepOut.ret (sweepAdvance 0 [] ⟨7, [], [9]⟩ gcScanLockLimit).1 none
        else SweepOut.next (sweepAdvance 0 [] ⟨7, [], [9]⟩ gcScanLockLimit).1
          (sweepAdvance 0 [] ⟨7, [], [9]⟩ gcScanLockLimit).2 0) :=
  c5_completed_regions 0 [1] [] 0
    { cancelled := false, scanRes := Except.ok ([], ⟨7, [], [9]⟩),
      scanBoUsed := 0, resolveRes := Except.ok (some ⟨7, [], [9]⟩),
      resolveBoUsed := 0 } [] ⟨7, [], [9]⟩ ⟨7, [], [9]⟩ rfl rfl rfl

/-- C6: when bulk resolution reports not-all-resolved with no hard error,
the backoff succeeds, and the freshly located region for the first lock's
key does not contain the last lock's key, `batchResolveLocksInARegion`
returns the (nil location, nil error) rescan sentinel; on that sentinel the
sweep loop goes around again with the same current key and an unchanged
`CompletedRegions` count. -/
theorem c6_rescan_sentinel (locks : List Lock) (expected region : Location)
    (hnc : containsKey region ((locks.getLastD ⟨[]⟩).key) = false)
    (stat : Nat) (key endKey : Key) (bo : Nat) (o : IterOracle)
    (locks2 : List Lock) (loc2 : Location)
    (hc : o.cancelled = false)
    (hs : o.scanRes = Except.ok (locks2, loc2))
    (hr : o.resolveRes = Except.ok none) :
    batchResolveStep locks expected (false, none) none (Except.ok region) =
      BResolveOut.ret none none ∧
    sweepIter stat key endKey bo o gcScanLockLimit =
      SweepOut.next stat key (bo + o.scanBoUsed + o.resolveBoUsed) := by
  constructor
  · simp only [batchResolveStep]
    rw [hnc]
    simp
  · simp [sweepIter, hc, hs, hr]

/-- Witness for C6: locks at keys 3 and 5, relocated region ending at 4. -/
theorem c6_rescan_sentinel_witness :
    batchResolveStep [⟨[3]⟩, ⟨[5]⟩] ⟨1, [], []⟩ (false, none) none
      (Except.ok ⟨2, [], [4]⟩) = BResolveOut.ret none none ∧
    sweepIter 4 [3] [] 2
      { cancelled := false, scanRes := Except.ok ([⟨[3]⟩, ⟨[5]⟩], ⟨1, [], []⟩),
        scanBoUsed := 0, resolveRes := Except.ok none, resolveBoUsed := 1 }
      gcScanLockLimit = SweepOut.next 4 [3] (2 + 0 + 1) :=
  c6_rescan_sentinel [⟨[3]⟩, ⟨[5]⟩] ⟨1, [], []⟩ ⟨2, [], [4]⟩ (by decide)
    4 [3] [] 2
    { cancelled := false, scanRes := Except.ok ([⟨[3]⟩, ⟨[5]⟩], ⟨1, [], []⟩),
      scanBoUsed := 0, resolveRes := Except.ok none, resolveBoUsed := 1 }
    [⟨[3]⟩, ⟨[5]⟩] ⟨1, [], []⟩ rfl rfl rfl

/-- C7 counterexample: when the lock-resolution sweep errs, `GC` returns
the named result `newSafePoint` at its zero value 0, which is less than the
safepoint 5 passed in — the claimed bound does not hold on executions where
the sweep returns an error. -/
theorem c7_gc_error_cex :
    (gcRun ⟨0⟩ 5 (some (Err.other 1)) none).2.1 = 0 ∧
    (gcRun ⟨0⟩ 5 (some (Err.other 1)) none).2.2 ≠ none ∧
    (gcRun ⟨0⟩ 5 (some (Err.other 1)) none).2.1 < 5 := by
  decide

/-- C7 (amended): on executions where neither the sweep nor the safe-point
update errs, the value `GC` returns is at least the safepoint passed in,
and across two successive successful calls the returned value never
regresses; on an erring execution `GC` returns 0 alongside the non-nil
error, and that value must be ignored. -/
theorem c7_safe_point_monotone (st : PDState) (sp1 sp2 : Nat)
    (h12 : sp1 ≤ sp2) :
    sp1 ≤ (gcRun st sp1 none none).2.1 ∧
    sp2 ≤ (gcRun (gcRun st sp1 none none).1 sp2 none none).2.1 ∧
    (gcRun st sp1 none none).2.1 ≤
      (gcRun (gcRun st sp1 none none).1 sp2 none none).2.1 := by
  refine ⟨?_, ?_, ?_⟩ <;> simp [gcRun, updateGCSafePoint]

/-- Witness for C7: two successive successful GC calls at safepoints 3
then 5. -/
theorem c7_safe_point_monotone_witness :
    (3 : Nat) ≤ (gcRun ⟨0⟩ 3 none none).2.1 ∧
    (5 : Nat) ≤ (gcRun (gcRun ⟨0⟩ 3 none none).1 5 none none).2.1 ∧
    (gcRun ⟨0⟩ 3 none none).2.1 ≤
      (gcRun (gcRun ⟨0⟩ 3 none none).1 5 none none).2.1 :=
  c7_safe_point_monotone ⟨0⟩ 3 5 (by decide)

/-- C8: a `CheckRegionInScattering` poll iteration returns `(false, nil)`
on a successful poll showing no running scatter-region operator,
`(true, nil)` on a successful poll showing one running, `(true, error)`
when a poll error exhausts the backoff budget, and never returns false
together with a non-nil error. -/
theorem c8_check_in_scattering (r : OperatorResp) (e e1 : Err)
    (rs : Option OperatorResp) (pe boErr : Option Err) :
    (scatterRunning r = false →
      checkRegionStep none (some r) boErr = CheckOut.ret false none) ∧
    (scatterRunning r = true →
      checkRegionStep none (some r) boErr = CheckOut.ret true none) ∧
    checkRegionStep (some e) rs (some e1) = CheckOut.ret true (some e1) ∧
    (∀ b : Option Err,
      checkRegionStep pe rs boErr = CheckOut.ret false b → b = none) := by
  refine ⟨?_, ?_, ?_, ?_⟩
  · intro h
    simp [checkRegionStep, h]
  · intro h
    simp [checkRegionStep, h]
  · cases rs <;> simp [checkRegionStep]
  · intro b h
    cases pe with
    | none =>
      cases rs with
      | none => simp [checkRegionStep] at h
      | some r1 =>
        by_cases hsr : scatterRunning r1 = true <;>
          simp [checkRegionStep, hsr] at h
        exact h.symm
    | some e2 =>
      cases boErr <;> cases rs <;> simp [checkRegionStep] at h

/-- Witness for C8: a finished operator, a running one, and an exhausted
backoff budget after a poll error. -/
theorem c8_check_in_scattering_witness :
    checkRegionStep none
      (some { desc := "scatter-region", status := OperatorStatus.SUCCESS,
              headerError := none }) none = CheckOut.ret false none ∧
    checkRegionStep none
      (some { desc := "scatter-region", status := OperatorStatus.RUNNING,
              headerError := none }) none = CheckOut.ret true none ∧
    checkRegionStep (some (Err.other 1)) none (some (Err.other 2)) =
      CheckOut.ret true (some (Err.other 2)) :=
  ⟨(c8_check_in_scattering
      { desc := "scatter-region", status := OperatorStatus.SUCCESS,
        headerError := none } (Err.other 1) (Err.other 2) none none none).1
      (by decide),
   (c8_check_in_scattering
      { desc := "scatter-region", status := OperatorStatus.RUNNING,
        headerError := none } (Err.other 1) (Err.other 2) none none none).2.1
      (by decide),
   (c8_check_in_scattering
      { desc := "scatter-region", status := OperatorStatus.SUCCESS,
        headerError := none } (Err.other 1) (Err.other 2) none none
      none).2.2.1⟩

theorem preSplitFold_spec (threshold : Nat) (muts : List Mutation)
    (run : Nat) (acc : List Key) :
    (muts.foldl
      (fun (a : Nat × List Key) m =>
        let sz := a.1 + m.1.length + m.2.length
        if sz ≥ threshold then (0, a.2 ++ [m.1]) else (sz, a.2))
      (run, acc)).2 = acc ++ specSplitPoints threshold run muts := by
  induction muts generalizing run acc with
  | nil => simp [specSplitPoints]
  | cons m rest ih =>
    simp only [List.foldl_cons, specSplitPoints]
    by_cases h : run + m.1.length + m.2.length ≥ threshold
    · simp only [h, if_pos]
      rw [ih]
      simp
    · simp only [h, if_neg, if_false]
      rw [ih]

/-- C9: `preSplitRegion` selects as split points exactly the keys at which
the running sum of `len(key)+len(value)`, accumulated in order over the
mutation group and reset to zero at each selected key, reaches or exceeds
the size threshold; when no split points accumulate it returns false with
no split, scatter, or cache-invalidation side effect. -/
theorem c9_presplit_points (muts : List Mutation) (threshold : Nat)
    (origRegion : RegionId) (splitRes : Except Err (List RegionId)) :
    preSplitKeysGo muts threshold = specSplitPoints threshold 0 muts ∧
    (preSplitKeysGo muts threshold = [] →
      preSplitRegionRun muts threshold origRegion splitRes = (false, [])) := by
  constructor
  · simpa [preSplitKeysGo] using preSplitFold_spec threshold muts 0 []
  · intro h
    simp [preSplitRegionRun, h]

/-- Witness for C9: two small mutations below a threshold of 100 yield no
split points and no side effect. -/
theorem c9_presplit_points_witness :
    preSplitKeysGo [([1], [2, 3]), ([4], [])] 100 =
      specSplitPoints 100 0 [([1], [2, 3]), ([4], [])] ∧
    preSplitRegionRun [([1], [2, 3]), ([4], [])] 100 9 (Except.ok [3]) =
      (false, []) :=
  ⟨(c9_presplit_points [([1], [2, 3]), ([4], [])] 100 9 (Except.ok [3])).1,
   (c9_presplit_points [([1], [2, 3]), ([4], [])] 100 9 (Except.ok [3])).2
     (by decide)⟩

/-- C10 counterexample: an iteration that exits through the rescan sentinel
(`resolvedLocation == nil` → `continue`) hands the next iteration the same
backoffer with its consumed budget (here 1 sleep), not a freshly
constructed one — so not every iteration of the sweep loop begins with a
fresh backoff instance. -/
theorem c10_backoff_cex :
    sweepIter 0 [0] [] 0
      { cancelled := false, scanRes := Except.ok ([], ⟨1, [], [2]⟩),
        scanBoUsed := 0, resolveRes := Except.ok none, resolveBoUsed := 1 }
      gcScanLockLimit = SweepOut.next 0 [0] 1 ∧ (1 : Nat) ≠ 0 := by
  exact ⟨rfl, by decide⟩

/-- C10 (amended): the sweep loop starts with a freshly constructed
backoffer, and every iteration entered after an iteration that completed
bulk resolution with a non-nil location begins with a freshly constructed
backoffer (budget 0) — but an iteration re-entered through the rescan
sentinel keeps the previous iteration's backoffer and its consumed
budget. -/
theorem c10_backoff_per_iteration (stat : Nat) (key endKey : Key) (bo : Nat)
    (o : IterOracle) (limit : Nat) :
    (∀ (l : Location) (s : Nat) (k : Key) (b : Nat),
      o.resolveRes = Except.ok (some l) →
      sweepIter stat key endKey bo o limit = SweepOut.next s k b → b = 0) ∧
    (∀ (s : Nat) (k : Key) (b : Nat),
      o.resolveRes = Except.ok none →
      sweepIter stat key endKey bo o limit = SweepOut.next s k b →
      b = bo + o.scanBoUsed + o.resolveBoUsed) ∧
    (∀ (os : List IterOracle) (startKey : Key),
      resolveLocksForRangeRun startKey endKey limit os =
        sweepLoop endKey limit os 0 startKey 0) := by
  refine ⟨?_, ?_, fun os startKey => rfl⟩
  · intro l s k b hres h
    by_cases hc : o.cancelled
    · simp [sweepIter, hc] at h
    · cases hs : o.scanRes with
      | error e => simp [sweepIter, hc, hs] at h
      | ok p =>
        simp only [sweepIter, hc, hs, hres, if_false, Bool.false_eq_true] at h
        by_cases hb : sweepBreak (sweepAdvance stat p.1 p.2 limit).2 endKey <;>
          simp [hb] at h
        exact h.2.2.symm
  · intro s k b hres h
    by_cases hc : o.cancelled
    · simp [sweepIter, hc] at h
    · cases hs : o.scanRes with
      | error e => simp [sweepIter, hc, hs] at h
      | ok p =>
        simp [sweepIter, hc, hs, hres] at h
        omega

/-- Witness for C10: after a completed iteration the next backoffer is
fresh; after a sentinel iteration it retains the consumed budget. -/
theorem c10_backoff_per_iteration_witness :
    (0 : Nat) = 0 ∧ (6 : Nat) = 5 + 0 + 1 :=
  ⟨(c10_backoff_per_iteration 0 [1] [] 5
      { cancelled := false, scanRes := Except.ok ([], ⟨7, [], [2]⟩),
        scanBoUsed := 0, resolveRes := Except.ok (some ⟨7, [], [2]⟩),
        resolveBoUsed := 0 } gcScanLockLimit).1 ⟨7, [], [2]⟩ 1 [2] 0 rfl rfl,
   (c10_backoff_per_iteration 0 [1] [] 5
      { cancelled := false, scanRes := Except.ok ([], ⟨7, [], [2]⟩),
        scanBoUsed := 0, resolveRes := Except.ok none,
        resolveBoUsed := 1 } gcScanLockLimit).2.1 0 [1] 6 rfl rfl⟩

end TikvSplit
